import Mathlib

/-!
Shallow embedding of the K-pop YouTube MV metrics collector
(`fetch_youtube_latest_mv.py`): title filtering, Shorts detection and
rescan, per-group view-delta state, and the per-run orchestration loop.
Strings are modelled as Lean `String`s; the character-level operations
(lower-casing, space removal, substring search, trimming) are spelled out
on `List Char` to mirror the Python string primitives. External calls
(duration fetch, statistics fetch, video search) are modelled as oracle
functions; an HTTP-level failure that the Python code would raise as an
exception is modelled as an explicit error value that propagates.
-/

namespace KpopMV

/-- ASCII lower-casing of a character list, mirroring Python `str.lower`
on the ASCII titles and keywords this program manipulates. -/
def toLowerL (s : List Char) : List Char := s.map Char.toLower

/-- Removal of every space character, mirroring `str.replace(" ", "")`. -/
def removeSpaces (s : List Char) : List Char := s.filter (fun c => c ≠ ' ')

/-- `leadMatch needle hay` holds when `needle` is an initial segment of
`hay` (helper for substring and end-of-string tests). -/
def leadMatch : List Char → List Char → Bool
  | [], _ => true
  | _ :: _, [] => false
  | c :: cs, d :: ds => c == d && leadMatch cs ds

/-- `containsSub needle hay` mirrors Python's `needle in hay` substring
test: `needle` occurs contiguously somewhere in `hay`. -/
def containsSub (needle : List Char) : List Char → Bool
  | [] => leadMatch needle []
  | c :: rest => leadMatch needle (c :: rest) || containsSub needle rest

/-- `endsWithL suf s` mirrors Python's `s.endswith(suf)`. -/
def endsWithL (suf s : List Char) : Bool := leadMatch suf.reverse s.reverse

/-- `stripL` mirrors Python's `str.strip()`: drop leading and trailing
whitespace. -/
def stripL (s : List Char) : List Char :=
  ((s.dropWhile Char.isWhitespace).reverse.dropWhile Char.isWhitespace).reverse

/-- A search result item: `item["id"]["videoId"]` and
`item["snippet"]["title"]`. -/
structure Item where
  videoId : String
  title : String
deriving DecidableEq

/-- The value returned by `filter_mv_items` / `search_latest_mv`:
`{"video_id": ..., "title": ...}`. -/
structure MVResult where
  video_id : String
  title : String
deriving DecidableEq

def itemToMV (it : Item) : MVResult := { video_id := it.videoId, title := it.title }

/-- The fixed exclusion vocabulary of `filter_mv_items` (lower-case). -/
def exclude_keywords : List String :=
  ["remix", "performance", "perf.", "dance", "choreo", "practice",
   "teaser", "highlight", "lyric", "reaction", "track video"]

/-- `group_name.lower().replace(" ", "")`. -/
def group_key (group_name : String) : List Char :=
  removeSpaces (toLowerL group_name.data)

/-- Embedding of `filter_mv_items(items, group_name)`: walk the items in
order; skip an item when the normalized group name is not a substring of
the compacted lower-cased title, when the lower-cased title contains an
exclusion keyword, or when the stripped lower-cased title does not end in
one of the accepted `mv` suffixes; return the first surviving item. -/
def filter_mv_items : List Item → String → Option MVResult
  | [], _ => none
  | item :: rest, group_name =>
    let title_lower := toLowerL item.title.data
    let title_compact := removeSpaces title_lower
    if !containsSub (group_key group_name) title_compact then
      filter_mv_items rest group_name
    else if exclude_keywords.any (fun kw => containsSub kw.data title_lower) then
      filter_mv_items rest group_name
    else
      let title_end := stripL title_lower
      if !(endsWithL "mv".data title_end || endsWithL "mv)".data title_end
          || endsWithL "mv]".data title_end
          || endsWithL "official mv".data title_end) then
        filter_mv_items rest group_name
      else
        some { video_id := item.videoId, title := item.title }

/-- The conjunction of the three checks of `filter_mv_items` as a single
predicate on a title. -/
def mvPass (group_name : String) (title : String) : Bool :=
  let title_lower := toLowerL title.data
  containsSub (group_key group_name) (removeSpaces title_lower)
  && !(exclude_keywords.any (fun kw => containsSub kw.data title_lower))
  && (endsWithL "mv".data (stripL title_lower)
      || endsWithL "mv)".data (stripL title_lower)
      || endsWithL "mv]".data (stripL title_lower)
      || endsWithL "official mv".data (stripL title_lower))

example : filter_mv_items [⟨"v1", "IVE LOVE DIVE MV"⟩] "IVE"
    = some ⟨"v1", "IVE LOVE DIVE MV"⟩ := by decide

example : filter_mv_items [⟨"v1", "IVE LOVE DIVE (Dance Practice) MV"⟩] "IVE" = none := by
  decide

example : filter_mv_items [⟨"v1", "IVE LOVE DIVE Teaser"⟩, ⟨"v2", "IVE Official MV"⟩] "IVE"
    = some ⟨"v2", "IVE Official MV"⟩ := by decide

/-! ### Duration fetch, Shorts check, and the resolver `search_latest_mv` -/

/-- Outcome of one call to `get_video_duration`: an HTTP-level failure
raises an exception in the Python code (`raise_for_status`), which we
model as `httpErr`; a successful response yields `ok none` when the
response carries no items (the function returns `None`) and
`ok (some d)` when it carries a duration string. -/
inductive DurFetch where
  | httpErr
  | ok (duration : Option String)
deriving DecidableEq

/-- Python truthiness of an optional string: `None` and `""` are falsy. -/
def strOptTruthy : Option String → Bool
  | none => false
  | some s => !(s == "")

/-- Embedding of `is_shorts(duration)`. The external `isodate` duration
parser is abstracted as `parse_duration : String → Option ℚ` returning
the total seconds, with `none` standing for the exception the Python
`try` block catches; in that case the predicate returns `False`. -/
def is_shorts (parse_duration : String → Option ℚ) (duration : String) : Bool :=
  match parse_duration duration with
  | some secs => decide (secs < 60)
  | none => false

/-- The relaxed match of the Shorts rescan: normalized group name in the
compacted lower-cased title, and the literal `"mv"` in the lower-cased
title. -/
def relaxedPass (group_name : String) (title : String) : Bool :=
  let title_lower := toLowerL title.data
  containsSub (group_key group_name) (removeSpaces title_lower)
    && containsSub "mv".data title_lower

/-- Embedding of the rescan loop of `search_latest_mv` (the
`for item in items[1:]` body, applied here to the already-truncated
list): for each item matching the relaxed rule, fetch its duration; an
HTTP failure propagates, an absent or empty duration or a Shorts
duration skips the item, otherwise the item is returned. -/
def rescanLoop (parse_duration : String → Option ℚ)
    (fetch_duration : String → DurFetch) (group_name : String) :
    List Item → Except Unit (Option MVResult)
  | [] => Except.ok none
  | item :: rest =>
    if relaxedPass group_name item.title then
      match fetch_duration item.videoId with
      | DurFetch.httpErr => Except.error ()
      | DurFetch.ok none => rescanLoop parse_duration fetch_duration group_name rest
      | DurFetch.ok (some d2) =>
        if !(d2 == "") && !is_shorts parse_duration d2 then
          Except.ok (some (itemToMV item))
        else
          rescanLoop parse_duration fetch_duration group_name rest
    else
      rescanLoop parse_duration fetch_duration group_name rest

/-- Embedding of `search_latest_mv` from the point where the raw search
items are in hand (the HTTP search call itself is the caller's oracle).
`Except.error ()` models an exception propagating out of the function
(the code has no handler around `get_video_duration`). -/
def search_latest_mv (parse_duration : String → Option ℚ)
    (fetch_duration : String → DurFetch) (items : List Item)
    (group_name : String) : Except Unit (Option MVResult) :=
  if items.isEmpty then Except.ok none
  else
    match filter_mv_items items group_name with
    | none => Except.ok none
    | some mv =>
      match fetch_duration mv.video_id with
      | DurFetch.httpErr => Except.error ()
      | DurFetch.ok none => Except.ok (some mv)
      | DurFetch.ok (some duration) =>
        if !(duration == "") && is_shorts parse_duration duration then
          rescanLoop parse_duration fetch_duration group_name (items.drop 1)
        else
          Except.ok (some mv)

/-! ### State store: `load_state` and `calc_view_delta` -/

/-- One persisted entry of `state.json`: `video_id`, `last_view`, and the
best-effort `title` cache. -/
structure GroupState where
  video_id : String
  last_view : Int
  title : Option String
deriving DecidableEq

/-- The state mapping, as an association list from group id to entry
(the Python `dict`). -/
abbrev StateMap := List (String × GroupState)

/-- `state.get(k)`. -/
def stateGet (state : StateMap) (k : String) : Option GroupState :=
  (state.find? (fun p => p.1 == k)).map (fun p => p.2)

/-- `state[k] = v`: replace the binding for `k` or append a new one. -/
def stateSet (state : StateMap) (k : String) (v : GroupState) : StateMap :=
  match state with
  | [] => [(k, v)]
  | (k', v') :: rest =>
    if k' == k then (k, v) :: rest else (k', v') :: stateSet rest k v

/-- Embedding of `load_state()`: the backing store is `some s` (file
present, parsed contents `s`) or `none` (file absent), in which case an
empty mapping is returned. -/
def load_state (stored : Option StateMap) : StateMap :=
  match stored with
  | some s => s
  | none => []

/-- Embedding of `calc_view_delta(state, group_id, video_id,
current_view, title)`: returns the delta together with the updated
state. -/
def calc_view_delta (state : StateMap) (group_id : String) (video_id : String)
    (current_view : Int) (title : Option String) : Int × StateMap :=
  let prev_entry := stateGet state group_id
  let delta : Int :=
    match prev_entry with
    | some pe =>
      if pe.video_id = video_id then
        let raw_delta := current_view - pe.last_view
        if raw_delta > 0 then raw_delta else 0
      else 0
    | none => 0
  let new_title : Option String :=
    if strOptTruthy title then title
    else if strOptTruthy (prev_entry.bind GroupState.title) then
      prev_entry.bind GroupState.title
    else none
  let updated_entry : GroupState :=
    { video_id := video_id, last_view := current_view, title := new_title }
  (delta, stateSet state group_id updated_entry)

/-! ### Run orchestrator: the per-group loop of `main` -/

/-- Static group configuration. -/
structure Group where
  id : String
  name : String
  channel_id : String
deriving DecidableEq

/-- The `GROUPS` constant. -/
def GROUPS : List Group :=
  [{ id := "ive", name := "IVE", channel_id := "UCYDmx2Sfpnaxg488yBpZIGg" },
   { id := "aespa", name := "aespa", channel_id := "UCEf_Bc-KVd7onSeifS3py9g" },
   { id := "taeyeon_panorama", name := "TAEYEON Panorama",
     channel_id := "UCEf_Bc-KVd7onSeifS3py9g" },
   { id := "le_sserafim", name := "LE SSERAFIM",
     channel_id := "UC3IZKseVpdzPSBaWxBxundA" },
   { id := "illit", name := "ILLIT", channel_id := "UC3IZKseVpdzPSBaWxBxundA" }]

/-- Outcome of one `get_video_stats` call: `fail` models a `None` return
(non-quota HTTP failure, or a response with no items), `quota` models the
`{"quota_exceeded": True}` return, `ok` a successful fetch. -/
inductive StatsResult where
  | fail
  | quota
  | ok (viewCount : Int) (title : Option String)
deriving DecidableEq

/-- One posted service metric (name and value). -/
structure Metric where
  name : String
  value : Int
deriving DecidableEq

/-- The collected outcome of a run: final in-memory state (what
`save_state` persists), the metrics posted in order, and whether the run
was aborted by quota exhaustion. -/
structure RunResult where
  state : StateMap
  metrics : List Metric
  aborted : Bool
deriving DecidableEq

/-- The orchestrator's external collaborators: the search-hour gate, the
MV resolver result per group id, and the statistics fetch per video id. -/
structure RunEnv where
  should_search : Bool
  resolve : String → Option MVResult
  get_stats : String → StatsResult

/-- The cached-title placeholder `"(タイトル不明)"`. -/
def unknownTitle : String := "(タイトル不明)"

/-- The video id and title chosen for a group at the top of the loop
body: the fresh resolution when this is a search run and it succeeded,
else the cached entry, else nothing (the group is skipped). -/
def chosenVideo (env : RunEnv) (state : StateMap) (g : Group) :
    Option (String × String) :=
  let cached_entry := stateGet state g.id
  let latest := if env.should_search then env.resolve g.id else none
  match latest with
  | some mv => some (mv.video_id, mv.title)
  | none =>
    match cached_entry with
    | some ce => some (ce.video_id, ce.title.getD unknownTitle)
    | none => none

def viewcountMetric (group_id video_id : String) : String :=
  "kpop.youtube.viewcount." ++ group_id ++ "_" ++ video_id

def viewdeltaMetric (group_id video_id : String) : String :=
  "kpop.youtube.viewdelta." ++ group_id ++ "_" ++ video_id

/-- Embedding of the `for g in GROUPS` loop of `main`: skip a group with
no chosen video or a failed statistics fetch (`continue`), stop the whole
loop on quota exhaustion (`break`), and otherwise post the absolute and
delta metrics and update the state. -/
def processGroups (env : RunEnv) : StateMap → List Group → RunResult
  | state, [] => { state := state, metrics := [], aborted := false }
  | state, g :: rest =>
    match chosenVideo env state g with
    | none => processGroups env state rest
    | some (video_id, title) =>
      match env.get_stats video_id with
      | StatsResult.fail => processGroups env state rest
      | StatsResult.quota => { state := state, metrics := [], aborted := true }
      | StatsResult.ok view_count stats_title =>
        let title2 :=
          if title == unknownTitle && strOptTruthy stats_title then
            stats_title.getD title
          else title
        let m1 : Metric := { name := viewcountMetric g.id video_id, value := view_count }
        let res := calc_view_delta state g.id video_id view_count (some title2)
        let m2 : Metric := { name := viewdeltaMetric g.id video_id, value := res.1 }
        let tail := processGroups env res.2 rest
        { state := tail.state, metrics := m1 :: m2 :: tail.metrics,
          aborted := tail.aborted }

/-- Embedding of `main` minus the wall-clock gate (the gate's outcome is
`env.should_search`): load the state, process every configured group, and
persist the resulting state (`RunResult.state` is what `save_state`
writes). -/
def mainRun (env : RunEnv) (stored : Option StateMap) : RunResult :=
  processGroups env (load_state stored) GROUPS

/-! ### Helper lemmas -/

/-- The filtering loop returns exactly the first item satisfying the
conjunction of its three checks. -/
theorem filter_mv_items_eq_find (items : List Item) (group_name : String) :
    filter_mv_items items group_name
      = (items.find? (fun it => mvPass group_name it.title)).map itemToMV := by
  induction items with
  | nil => rfl
  | cons it rest ih =>
    cases hc1 : containsSub (group_key group_name)
        (removeSpaces (toLowerL it.title.data)) with
    | false => simp [filter_mv_items, mvPass, hc1, ih]
    | true =>
      cases hc2 : exclude_keywords.any
          (fun kw => containsSub kw.data (toLowerL it.title.data)) with
      | true => simp [filter_mv_items, mvPass, hc1, hc2, ih]
      | false =>
        cases hc3 : (endsWithL "mv".data (stripL (toLowerL it.title.data))
            || endsWithL "mv)".data (stripL (toLowerL it.title.data))
            || endsWithL "mv]".data (stripL (toLowerL it.title.data))
            || endsWithL "official mv".data (stripL (toLowerL it.title.data))) with
        | false => simp [filter_mv_items, mvPass, hc1, hc2, hc3, ih]
        | true => simp [filter_mv_items, mvPass, hc1, hc2, hc3, itemToMV]

theorem stateGet_stateSet_self (st : StateMap) (k : String) (v : GroupState) :
    stateGet (stateSet st k v) k = some v := by
  induction st with
  | nil => simp [stateGet, stateSet]
  | cons p rest ih =>
    obtain ⟨k', v'⟩ := p
    show stateGet (if (k' == k) = true then (k, v) :: rest
        else (k', v') :: stateSet rest k v) k = some v
    by_cases h : k' = k
    · rw [if_pos (beq_iff_eq.mpr h)]
      simp [stateGet]
    · rw [if_neg (by simp [h])]
      show Option.map (fun p => p.2)
          (List.find? (fun p => p.1 == k) ((k', v') :: stateSet rest k v)) = some v
      rw [List.find?_cons_of_neg _ (by simp [h])]
      exact ih

theorem stateGet_stateSet_ne (st : StateMap) (k k2 : String) (v : GroupState)
    (h : k2 ≠ k) : stateGet (stateSet st k v) k2 = stateGet st k2 := by
  induction st with
  | nil =>
    show stateGet [(k, v)] k2 = stateGet [] k2
    simp [stateGet, Ne.symm h]
  | cons p rest ih =>
    obtain ⟨k', v'⟩ := p
    show stateGet (if (k' == k) = true then (k, v) :: rest
        else (k', v') :: stateSet rest k v) k2
      = stateGet ((k', v') :: rest) k2
    by_cases hk : k' = k
    · rw [if_pos (beq_iff_eq.mpr hk)]
      show Option.map (fun p => p.2)
          (List.find? (fun p => p.1 == k2) ((k, v) :: rest))
        = Option.map (fun p => p.2)
          (List.find? (fun p => p.1 == k2) ((k', v') :: rest))
      rw [List.find?_cons_of_neg _ (by simp [Ne.symm h]),
        List.find?_cons_of_neg _ (by simp [hk, Ne.symm h])]
    · rw [if_neg (by simp [hk])]
      by_cases hk2 : k' = k2
      · subst hk2
        simp [stateGet]
      · show Option.map (fun p => p.2)
            (List.find? (fun p => p.1 == k2) ((k', v') :: stateSet rest k v))
          = Option.map (fun p => p.2)
            (List.find? (fun p => p.1 == k2) ((k', v') :: rest))
        rw [List.find?_cons_of_neg _ (by simp [hk2]),
          List.find?_cons_of_neg _ (by simp [hk2])]
        exact ih

/-! ### Claim theorems -/

/-- C1: for every candidate list (newest first) and every group name, the
MV filter returns the first candidate whose title passes all three
checks — normalized group-name substring, no exclusion keyword, accepted
`mv` suffix on the trimmed lower-cased title — and returns `none` when no
candidate passes; in particular a returned title always contains the
normalized group-name substring and never contains an exclusion
keyword. -/
theorem mv_filter_first_qualifying (items : List Item) (group_name : String) :
    filter_mv_items items group_name
      = (items.find? (fun it => mvPass group_name it.title)).map itemToMV
    ∧ ((∀ it ∈ items, mvPass group_name it.title = false) →
        filter_mv_items items group_name = none)
    ∧ (∀ r, filter_mv_items items group_name = some r →
        containsSub (group_key group_name) (removeSpaces (toLowerL r.title.data)) = true
        ∧ (exclude_keywords.any fun kw => containsSub kw.data (toLowerL r.title.data))
            = false) := by
  refine ⟨filter_mv_items_eq_find items group_name, ?_, ?_⟩
  · intro hall
    rw [filter_mv_items_eq_find]
    have hnone : items.find? (fun it => mvPass group_name it.title) = none := by
      rw [List.find?_eq_none]
      intro x hx
      simp [hall x hx]
    rw [hnone]
    rfl
  · intro r hr
    rw [filter_mv_items_eq_find, Option.map_eq_some'] at hr
    obtain ⟨it, hfind, hmap⟩ := hr
    have hp := List.find?_some hfind
    have ht : r.title = it.title := by rw [← hmap]; rfl
    rw [ht]
    have hp' : (containsSub (group_key group_name) (removeSpaces (toLowerL it.title.data))
        && !(exclude_keywords.any fun kw => containsSub kw.data (toLowerL it.title.data))
        && (endsWithL "mv".data (stripL (toLowerL it.title.data))
            || endsWithL "mv)".data (stripL (toLowerL it.title.data))
            || endsWithL "mv]".data (stripL (toLowerL it.title.data))
            || endsWithL "official mv".data (stripL (toLowerL it.title.data)))) = true := hp
    rw [Bool.and_eq_true, Bool.and_eq_true] at hp'
    obtain ⟨⟨h1, h2⟩, _⟩ := hp'
    exact ⟨h1, by rwa [Bool.not_eq_true'] at h2⟩

theorem mv_filter_first_qualifying_witness :
    filter_mv_items [{ videoId := "v1", title := "IVE LOVE DIVE Teaser" }] "IVE" = none :=
  (mv_filter_first_qualifying
    [{ videoId := "v1", title := "IVE LOVE DIVE Teaser" }] "IVE").2.1 (by decide)

/-- C8: loading state from an absent backing store yields the empty
mapping, not an error. -/
theorem load_state_absent_empty : load_state none = ([] : StateMap) := rfl

/-- C3: when the stored entry for the group exists and carries the same
video id as the new observation, the delta is
`max 0 (current_view - last_view)` — a negative raw difference is clamped
to zero — and afterwards the stored entry has `last_view = current_view`
and an unchanged `video_id`. -/
theorem calc_view_delta_fst (state : StateMap) (group_id video_id : String)
    (current_view : Int) (title : Option String) :
    (calc_view_delta state group_id video_id current_view title).1
      = (match stateGet state group_id with
         | some pe =>
           if pe.video_id = video_id then
             (if current_view - pe.last_view > 0 then current_view - pe.last_view else 0)
           else 0
         | none => 0) := rfl

theorem calc_view_delta_snd (state : StateMap) (group_id video_id : String)
    (current_view : Int) (title : Option String) :
    (calc_view_delta state group_id video_id current_view title).2
      = stateSet state group_id
          (GroupState.mk video_id current_view
            (if strOptTruthy title then title
              else if strOptTruthy ((stateGet state group_id).bind GroupState.title) then
                (stateGet state group_id).bind GroupState.title
              else none)) := rfl

theorem delta_same_video (state : StateMap) (group_id video_id : String)
    (current_view : Int) (title : Option String) (pe : GroupState)
    (h1 : stateGet state group_id = some pe) (h2 : pe.video_id = video_id) :
    (calc_view_delta state group_id video_id current_view title).1
        = max 0 (current_view - pe.last_view)
    ∧ ∃ pe', stateGet (calc_view_delta state group_id video_id current_view title).2
          group_id = some pe'
        ∧ pe'.last_view = current_view ∧ pe'.video_id = pe.video_id := by
  constructor
  · rw [calc_view_delta_fst, h1]
    show (if pe.video_id = video_id then
        (if current_view - pe.last_view > 0 then current_view - pe.last_view else 0)
      else 0) = max 0 (current_view - pe.last_view)
    rw [if_pos h2]
    rcases le_or_lt (current_view - pe.last_view) 0 with hle | hlt
    · rw [if_neg (not_lt.mpr hle), max_eq_left hle]
    · rw [if_pos hlt, max_eq_right hlt.le]
  · refine ⟨GroupState.mk video_id current_view
        (if strOptTruthy title then title
          else if strOptTruthy ((stateGet state group_id).bind GroupState.title) then
            (stateGet state group_id).bind GroupState.title
          else none), ?_, rfl, h2.symm⟩
    rw [calc_view_delta_snd]
    exact stateGet_stateSet_self state group_id _

def stC3 : StateMap := [("ive", { video_id := "A", last_view := 200, title := none })]

theorem delta_same_video_witness :
    (calc_view_delta stC3 "ive" "A" 190 none).1 = max 0 (190 - 200)
    ∧ ∃ pe', stateGet (calc_view_delta stC3 "ive" "A" 190 none).2 "ive" = some pe'
        ∧ pe'.last_view = 190 ∧ pe'.video_id = "A" := by
  have h := delta_same_video stC3 "ive" "A" 190 none
      { video_id := "A", last_view := 200, title := none } (by decide) rfl
  exact h

/-- C4: on the first observation of a group, or when the stored entry's
video id differs from the observed one, the delta is zero and the stored
entry is overwritten with the new video id, the current view count, and
the given title when provided — else the previously cached title, if
any. Titles are `none` or non-empty, matching the Python truthiness
reading of "provided" / "if any". -/
theorem delta_changeover (state : StateMap) (group_id video_id : String)
    (current_view : Int) (title : Option String)
    (h : stateGet state group_id = none
      ∨ ∃ pe, stateGet state group_id = some pe ∧ pe.video_id ≠ video_id)
    (ht : title = none ∨ ∃ t, title = some t ∧ t ≠ "")
    (hp : (stateGet state group_id).bind GroupState.title = none
      ∨ ∃ t, (stateGet state group_id).bind GroupState.title = some t ∧ t ≠ "") :
    (calc_view_delta state group_id video_id current_view title).1 = 0
    ∧ stateGet (calc_view_delta state group_id video_id current_view title).2 group_id
      = some { video_id := video_id, last_view := current_view,
               title := title.orElse fun _ =>
                 (stateGet state group_id).bind GroupState.title } := by
  have htitle : (if strOptTruthy title then title
      else if strOptTruthy ((stateGet state group_id).bind GroupState.title) then
        (stateGet state group_id).bind GroupState.title
      else none)
      = (title.orElse fun _ => (stateGet state group_id).bind GroupState.title) := by
    rcases ht with rfl | ⟨t, rfl, hne⟩
    · rcases hp with hp0 | ⟨t2, hp2, hne2⟩
      · simp [strOptTruthy, hp0, Option.orElse]
      · simp [strOptTruthy, hp2, hne2, Option.orElse]
    · simp [strOptTruthy, hne, Option.orElse]
  constructor
  · rw [calc_view_delta_fst]
    rcases h with h0 | ⟨pe, hpe, hne⟩
    · rw [h0]
    · rw [hpe]
      show (if pe.video_id = video_id then
          (if current_view - pe.last_view > 0 then current_view - pe.last_view else 0)
        else 0) = 0
      rw [if_neg hne]
  · rw [calc_view_delta_snd, htitle]
    exact stateGet_stateSet_self state group_id _

def stC4 : StateMap := [("ive", { video_id := "A", last_view := 100, title := some "Old" })]

theorem delta_changeover_witness :
    (calc_view_delta stC4 "ive" "B" 10 none).1 = 0
    ∧ stateGet (calc_view_delta stC4 "ive" "B" 10 none).2 "ive"
      = some { video_id := "B", last_view := 10, title := some "Old" } := by
  have h := delta_changeover stC4 "ive" "B" 10 none
      (Or.inr ⟨{ video_id := "A", last_view := 100, title := some "Old" },
        by decide, by decide⟩)
      (Or.inl rfl)
      (Or.inr ⟨"Old", by decide, by decide⟩)
  exact h

/-! ### Resolver claims: Shorts check, rescan, fail-open behaviour -/

/-- `fetchParses parse fd it`: the duration fetch for `it` succeeds with a
non-empty duration string that the parser accepts (the contract of the
external catalog interface for duration strings). -/
def fetchParses (parse_duration : String → Option ℚ)
    (fetch_duration : String → DurFetch) (it : Item) : Bool :=
  match fetch_duration it.videoId with
  | DurFetch.ok (some s) => !(s == "") && (parse_duration s).isSome
  | _ => false

/-- The spec-side qualification for the Shorts rescan: the relaxed title
rule together with a successfully fetched duration of at least 60
seconds. -/
def rescanSpecQual (parse_duration : String → Option ℚ)
    (fetch_duration : String → DurFetch) (group_name : String) (it : Item) : Bool :=
  relaxedPass group_name it.title
    && (match fetch_duration it.videoId with
        | DurFetch.ok (some s) =>
          !(s == "") && (match parse_duration s with
            | some secs => decide (60 ≤ secs)
            | none => false)
        | _ => false)

/-- When every relaxed-matching candidate has a fetchable, parseable
duration, the rescan loop returns exactly the first candidate qualifying
in the spec's sense (relaxed rule and duration at least 60 seconds). -/
theorem rescanLoop_eq_find (parse_duration : String → Option ℚ)
    (fetch_duration : String → DurFetch) (group_name : String) (l : List Item)
    (h : ∀ it ∈ l, relaxedPass group_name it.title = true →
        fetchParses parse_duration fetch_duration it = true) :
    rescanLoop parse_duration fetch_duration group_name l
      = Except.ok ((l.find?
          (rescanSpecQual parse_duration fetch_duration group_name)).map itemToMV) := by
  induction l with
  | nil => rfl
  | cons it rest ih =>
    have hrest : ∀ j ∈ rest, relaxedPass group_name j.title = true →
        fetchParses parse_duration fetch_duration j = true :=
      fun j hj => h j (List.mem_cons_of_mem _ hj)
    cases hr : relaxedPass group_name it.title with
    | false =>
      have hq : rescanSpecQual parse_duration fetch_duration group_name it = false := by
        simp [rescanSpecQual, hr]
      rw [List.find?_cons_of_neg _ (by simp [hq])]
      simp only [rescanLoop, hr]
      rw [if_neg (by simp)]
      exact ih hrest
    | true =>
      have hfp := h it (List.mem_cons_self it rest) hr
      cases hfd : fetch_duration it.videoId with
      | httpErr => simp [fetchParses, hfd] at hfp
      | ok dopt =>
        cases dopt with
        | none => simp [fetchParses, hfd] at hfp
        | some s =>
          have hfp' : (!(s == "") && (parse_duration s).isSome) = true := by
            have hcopy := hfp
            simp only [fetchParses, hfd] at hcopy
            exact hcopy
          rw [Bool.and_eq_true] at hfp'
          obtain ⟨hs, hps⟩ := hfp'
          obtain ⟨secs, hsecs⟩ := Option.isSome_iff_exists.mp hps
          by_cases hlt : secs < 60
          · have hshort : is_shorts parse_duration s = true := by
              simp [is_shorts, hsecs, hlt]
            have hq : rescanSpecQual parse_duration fetch_duration group_name it
                = false := by
              simp [rescanSpecQual, hfd, hsecs, not_le.mpr hlt]
            rw [List.find?_cons_of_neg _ (by simp [hq]), ← ih hrest]
            simp [rescanLoop, hr, hfd, hshort]
          · have hq : rescanSpecQual parse_duration fetch_duration group_name it
                = true := by
              simp [rescanSpecQual, hr, hfd, hsecs, hs, not_lt.mp hlt]
            rw [List.find?_cons_of_pos _ (by simp [hq])]
            have hnshort : is_shorts parse_duration s = false := by
              simp [is_shorts, hsecs, hlt]
            simp [rescanLoop, hr, hfd, hs, hnshort]

/-- C2: when the tentative match's fetched duration parses to under 60
seconds, the resolver rejects it and rescans the candidates after the
first, returning the first one passing the relaxed rule whose own fetched
duration is at least 60 seconds, and not-found when none qualifies
(hypotheses `h3`-`h6` state the catalog contract that fetched duration
strings are non-empty and parseable). -/
theorem shorts_rejected_then_rescan (parse_duration : String → Option ℚ)
    (fetch_duration : String → DurFetch) (items : List Item) (group_name : String)
    (mv : MVResult) (d : String) (secs : ℚ)
    (h1 : filter_mv_items items group_name = some mv)
    (h2 : fetch_duration mv.video_id = DurFetch.ok (some d))
    (h3 : d ≠ "") (h4 : parse_duration d = some secs) (h5 : secs < 60)
    (h6 : ∀ it ∈ items.drop 1, relaxedPass group_name it.title = true →
        fetchParses parse_duration fetch_duration it = true) :
    search_latest_mv parse_duration fetch_duration items group_name
      = Except.ok (((items.drop 1).find?
          (rescanSpecQual parse_duration fetch_duration group_name)).map itemToMV) := by
  have hne : items.isEmpty = false := by
    cases items with
    | nil => exact absurd h1 (by simp [filter_mv_items])
    | cons a l => rfl
  rw [← rescanLoop_eq_find parse_duration fetch_duration group_name (items.drop 1) h6]
  have hsh : is_shorts parse_duration d = true := by simp [is_shorts, h4, h5]
  have hd : (d == "") = false := by simp [h3]
  simp [search_latest_mv, hne, h1, h2, hsh, hd]

def itemsC2 : List Item :=
  [{ videoId := "v1", title := "IVE A MV" }, { videoId := "v2", title := "IVE B MV" }]

def fdC2 : String → DurFetch := fun v =>
  if v = "v1" then DurFetch.ok (some "PT45S")
  else if v = "v2" then DurFetch.ok (some "PT3M") else DurFetch.ok none

def parseC2 : String → Option ℚ := fun s =>
  if s = "PT45S" then some 45 else if s = "PT3M" then some 180 else none

theorem shorts_rejected_then_rescan_witness :
    search_latest_mv parseC2 fdC2 itemsC2 "IVE"
      = Except.ok (some { video_id := "v2", title := "IVE B MV" }) := by
  have h := shorts_rejected_then_rescan parseC2 fdC2 itemsC2 "IVE"
      { video_id := "v1", title := "IVE A MV" } "PT45S" 45
      (by decide) (by decide) (by decide) (by decide) (by decide) (by decide)
  rw [h]
  rfl

/-- C6 (amended): the duration check fails open only when the duration
fetch succeeds but returns no data — then the tentative match is accepted
as-is; when the duration fetch itself fails at the HTTP level, the error
propagates out of the resolver instead (the code has no handler), so the
tentative match is not returned. -/
theorem duration_no_data_fail_open (parse_duration : String → Option ℚ)
    (fetch_duration : String → DurFetch) (items : List Item) (group_name : String)
    (mv : MVResult)
    (h1 : filter_mv_items items group_name = some mv) :
    (fetch_duration mv.video_id = DurFetch.ok none →
        search_latest_mv parse_duration fetch_duration items group_name
          = Except.ok (some mv))
    ∧ (fetch_duration mv.video_id = DurFetch.httpErr →
        search_latest_mv parse_duration fetch_duration items group_name
          = Except.error ()) := by
  have hne : items.isEmpty = false := by
    cases items with
    | nil => exact absurd h1 (by simp [filter_mv_items])
    | cons a l => rfl
  constructor
  · intro hfd
    simp [search_latest_mv, hne, h1, hfd]
  · intro hfd
    simp [search_latest_mv, hne, h1, hfd]

def itemsC6 : List Item := [{ videoId := "v1", title := "IVE LOVE DIVE MV" }]

def fdC6 : String → DurFetch := fun _ => DurFetch.httpErr

def fdC6b : String → DurFetch := fun _ => DurFetch.ok none

def parseC6 : String → Option ℚ := fun _ => none

/-- C6 counterexample: a tentative match exists and its duration fetch
fails at the HTTP level; the resolver then propagates the error rather
than accepting the tentative match as-is. -/
theorem duration_error_counterexample :
    filter_mv_items itemsC6 "IVE"
        = some { video_id := "v1", title := "IVE LOVE DIVE MV" }
    ∧ search_latest_mv parseC6 fdC6 itemsC6 "IVE" = Except.error ()
    ∧ search_latest_mv parseC6 fdC6 itemsC6 "IVE"
        ≠ Except.ok (some { video_id := "v1", title := "IVE LOVE DIVE MV" }) := by
  have he : search_latest_mv parseC6 fdC6 itemsC6 "IVE" = Except.error () := rfl
  exact ⟨by decide, he, fun h => Except.noConfusion (he.symm.trans h)⟩

theorem duration_no_data_fail_open_witness :
    search_latest_mv parseC6 fdC6b itemsC6 "IVE"
      = Except.ok (some { video_id := "v1", title := "IVE LOVE DIVE MV" }) :=
  (duration_no_data_fail_open parseC6 fdC6b itemsC6 "IVE"
    { video_id := "v1", title := "IVE LOVE DIVE MV" } (by decide)).1 rfl

/-- C9: a duration string the parser rejects is classified as
not-a-Short, and therefore an unparseable duration never causes a
tentative match to be rejected by the Shorts check — the resolver
accepts it. -/
theorem unparseable_duration_not_short (parse_duration : String → Option ℚ)
    (fetch_duration : String → DurFetch) (items : List Item) (group_name : String)
    (mv : MVResult) (d : String)
    (h1 : filter_mv_items items group_name = some mv)
    (h2 : fetch_duration mv.video_id = DurFetch.ok (some d))
    (h3 : parse_duration d = none) :
    is_shorts parse_duration d = false
    ∧ search_latest_mv parse_duration fetch_duration items group_name
        = Except.ok (some mv) := by
  have hsh : is_shorts parse_duration d = false := by simp [is_shorts, h3]
  have hne : items.isEmpty = false := by
    cases items with
    | nil => exact absurd h1 (by simp [filter_mv_items])
    | cons a l => rfl
  refine ⟨hsh, ?_⟩
  simp [search_latest_mv, hne, h1, h2, hsh]

def fdC9 : String → DurFetch := fun _ => DurFetch.ok (some "garbage")

theorem unparseable_duration_not_short_witness :
    is_shorts parseC6 "garbage" = false
    ∧ search_latest_mv parseC6 fdC9 itemsC6 "IVE"
        = Except.ok (some { video_id := "v1", title := "IVE LOVE DIVE MV" }) :=
  unparseable_duration_not_short parseC6 fdC9 itemsC6 "IVE"
    { video_id := "v1", title := "IVE LOVE DIVE MV" } "garbage"
    (by decide) rfl rfl

/-- The catalog contract for one candidate: when its duration fetch
yields a string, that string parses. -/
def durParseOk (parse_duration : String → Option ℚ)
    (fetch_duration : String → DurFetch) (it : Item) : Bool :=
  match fetch_duration it.videoId with
  | DurFetch.ok (some s) => (parse_duration s).isSome
  | _ => true

/-- C10: in the Shorts rescan, a relaxed-matching candidate whose
duration fetch returns no data is skipped rather than accepted; and
whenever every candidate's fetched duration string (if any) parses (the
catalog contract), any candidate the rescan returns comes with a
successfully fetched duration of at least 60 seconds. -/
theorem rescan_skips_unavailable_duration (parse_duration : String → Option ℚ)
    (fetch_duration : String → DurFetch) (group_name : String) :
    (∀ it rest, fetch_duration it.videoId = DurFetch.ok none →
        rescanLoop parse_duration fetch_duration group_name (it :: rest)
          = rescanLoop parse_duration fetch_duration group_name rest)
    ∧ (∀ l r, (∀ j ∈ l, durParseOk parse_duration fetch_duration j = true) →
        rescanLoop parse_duration fetch_duration group_name l = Except.ok (some r) →
        ∃ j ∈ l, r = itemToMV j
          ∧ ∃ s secs, fetch_duration j.videoId = DurFetch.ok (some s)
            ∧ s ≠ "" ∧ parse_duration s = some secs ∧ 60 ≤ secs) := by
  constructor
  · intro it rest hfd
    cases hr : relaxedPass group_name it.title with
    | false => simp [rescanLoop, hr]
    | true => simp [rescanLoop, hr, hfd]
  · intro l
    induction l with
    | nil =>
      intro r _ hres
      simp [rescanLoop] at hres
    | cons it rest ih =>
      intro r hall hres
      have hallrest : ∀ j ∈ rest, durParseOk parse_duration fetch_duration j = true :=
        fun j hj => hall j (List.mem_cons_of_mem _ hj)
      cases hr : relaxedPass group_name it.title with
      | false =>
        simp only [rescanLoop, hr] at hres
        rw [if_neg (by simp)] at hres
        obtain ⟨j, hjmem, hrest⟩ := ih r hallrest hres
        exact ⟨j, List.mem_cons_of_mem _ hjmem, hrest⟩
      | true =>
        cases hfd : fetch_duration it.videoId with
        | httpErr => simp [rescanLoop, hr, hfd] at hres
        | ok dopt =>
          cases dopt with
          | none =>
            simp only [rescanLoop, hr, hfd] at hres
            rw [if_pos trivial] at hres
            obtain ⟨j, hjmem, hrest⟩ := ih r hallrest hres
            exact ⟨j, List.mem_cons_of_mem _ hjmem, hrest⟩
          | some s =>
            by_cases hb : (!(s == "") && !is_shorts parse_duration s) = true
            · simp [rescanLoop, hr, hfd, hb] at hres
              rw [Bool.and_eq_true] at hb
              obtain ⟨hs, hnsh⟩ := hb
              have hcontract := hall it (List.mem_cons_self it rest)
              have hps : (parse_duration s).isSome = true := by
                have hcopy : (match fetch_duration it.videoId with
                    | DurFetch.ok (some s) => (parse_duration s).isSome
                    | _ => true) = true := hcontract
                rw [hfd] at hcopy
                exact hcopy
              obtain ⟨secs, hsecs⟩ := Option.isSome_iff_exists.mp hps
              have hge : 60 ≤ secs := by
                by_contra hlt
                have : is_shorts parse_duration s = true := by
                  simp [is_shorts, hsecs, not_le.mp hlt]
                rw [this] at hnsh
                simp at hnsh
              refine ⟨it, List.mem_cons_self it rest, hres.symm, s, secs, hfd, ?_, hsecs, hge⟩
              simpa using hs
            · simp only [rescanLoop, hr, hfd] at hres
              rw [if_pos trivial, if_neg hb] at hres
              obtain ⟨j, hjmem, hrest⟩ := ih r hallrest hres
              exact ⟨j, List.mem_cons_of_mem _ hjmem, hrest⟩

def itemsC10 : List Item :=
  [{ videoId := "u1", title := "IVE C MV" }, { videoId := "u2", title := "IVE D MV" }]

def fdC10 : String → DurFetch := fun v =>
  if v = "u1" then DurFetch.ok none
  else if v = "u2" then DurFetch.ok (some "PT2M") else DurFetch.httpErr

def parseC10 : String → Option ℚ := fun s => if s = "PT2M" then some 120 else none

theorem rescan_skips_unavailable_duration_witness :
    rescanLoop parseC10 fdC10 "IVE" itemsC10
      = rescanLoop parseC10 fdC10 "IVE" [{ videoId := "u2", title := "IVE D MV" }]
    ∧ ∃ j ∈ itemsC10, ({ video_id := "u2", title := "IVE D MV" } : MVResult) = itemToMV j
        ∧ ∃ s secs, fdC10 j.videoId = DurFetch.ok (some s)
          ∧ s ≠ "" ∧ parseC10 s = some secs ∧ 60 ≤ secs := by
  have h := rescan_skips_unavailable_duration parseC10 fdC10 "IVE"
  constructor
  · exact h.1 { videoId := "u1", title := "IVE C MV" }
      [{ videoId := "u2", title := "IVE D MV" }] (by decide)
  · exact h.2 itemsC10 { video_id := "u2", title := "IVE D MV" } (by decide) rfl

/-! ### Orchestrator claims: quota abort and per-group failure handling -/

/-- C5: when the statistics fetch for a group's chosen video reports
quota exhaustion and the groups before it were processed without abort,
the run stops there: for any list of later groups, the result carries
exactly the state and metrics accumulated over the earlier groups with
the aborted flag set — later groups contribute nothing, and the
accumulated state is what the run persists at its end. -/
theorem quota_aborts_rest (env : RunEnv) (state : StateMap) (pre : List Group)
    (gk : Group) (post : List Group) (st1 : StateMap) (ms1 : List Metric)
    (v t : String)
    (h1 : processGroups env state pre = RunResult.mk st1 ms1 false)
    (h2 : chosenVideo env st1 gk = some (v, t))
    (h3 : env.get_stats v = StatsResult.quota) :
    processGroups env state (pre ++ gk :: post) = RunResult.mk st1 ms1 true := by
  induction pre generalizing state ms1 with
  | nil =>
    simp only [processGroups] at h1
    injection h1 with hst hms hab
    subst hst
    subst hms
    show processGroups env state (gk :: post) = RunResult.mk state [] true
    simp only [processGroups, h2, h3]
  | cons g pre ih =>
    rw [List.cons_append]
    cases hcv : chosenVideo env state g with
    | none =>
      simp only [processGroups, hcv] at h1 ⊢
      exact ih state ms1 h1
    | some vt =>
      obtain ⟨vid, ttl⟩ := vt
      cases hst : env.get_stats vid with
      | fail =>
        simp only [processGroups, hcv, hst] at h1 ⊢
        exact ih state ms1 h1
      | quota =>
        simp only [processGroups, hcv, hst] at h1
        injection h1 with _ _ hab
        exact absurd hab (by simp)
      | ok vc stl =>
        simp only [processGroups, hcv, hst] at h1 ⊢
        injection h1 with hsa hsm hsb
        have hT : processGroups env ((calc_view_delta state g.id vid vc
            (some (if ttl == unknownTitle && strOptTruthy stl then stl.getD ttl
              else ttl))).2) pre
            = RunResult.mk st1 (processGroups env ((calc_view_delta state g.id vid vc
              (some (if ttl == unknownTitle && strOptTruthy stl then stl.getD ttl
                else ttl))).2) pre).metrics false := by
          rw [← hsa, ← hsb]
        have hrec := ih _ _ hT
        rw [hrec, ← hsm]

def g1W : Group := { id := "g1", name := "G One", channel_id := "c1" }

def g2W : Group := { id := "g2", name := "G Two", channel_id := "c2" }

def g3W : Group := { id := "g3", name := "G Three", channel_id := "c3" }

def envW : RunEnv :=
  { should_search := true
  , resolve := fun gid =>
      if gid = "g1" then some { video_id := "v1", title := "T1" }
      else if gid = "g2" then some { video_id := "v2", title := "T2" }
      else none
  , get_stats := fun vid =>
      if vid = "v1" then StatsResult.ok 100 none
      else if vid = "v2" then StatsResult.quota
      else StatsResult.fail }

theorem quota_aborts_rest_witness :
    processGroups envW [] ([g1W] ++ g2W :: [g3W])
      = RunResult.mk [("g1", GroupState.mk "v1" 100 (some "T1"))]
          [Metric.mk "kpop.youtube.viewcount.g1_v1" 100,
           Metric.mk "kpop.youtube.viewdelta.g1_v1" 0] true :=
  quota_aborts_rest envW [] [g1W] g2W [g3W]
    [("g1", GroupState.mk "v1" 100 (some "T1"))]
    [Metric.mk "kpop.youtube.viewcount.g1_v1" 100,
     Metric.mk "kpop.youtube.viewdelta.g1_v1" 0]
    "v2" "T2" (by decide) (by decide) (by decide)

/-! ### Exception-aware orchestrator and C7

`RunEnv`/`processGroups` above model the loop when no collaborator
raises, which suffices for the quota claim. The per-group failure claim
also concerns the calls that *can* raise through `main` with no handler:
the search request and the duration fetch inside `search_latest_mv`
(`raise_for_status` with no surrounding `try`), and `post_service_metric`
(likewise). `RunEnvE`/`processGroupsE` make those channels explicit; an
`Except.error` outcome is a crashed run, in which `save_state` at the end
of `main` never executes. -/

/-- The orchestrator's collaborators with their failure channels: the
resolver may raise (modelled after `search_latest_mv`'s `Except` result),
the statistics fetch returns the outcomes `get_video_stats` itself
catches, and a metric post either succeeds or raises. -/
structure RunEnvE where
  should_search : Bool
  resolve : String → Except Unit (Option MVResult)
  get_stats : String → StatsResult
  post : Metric → Bool

/-- The video id and title chosen for a group at the top of the loop
body, with a resolver exception propagating. -/
def chosenVideoE (env : RunEnvE) (state : StateMap) (g : Group) :
    Except Unit (Option (String × String)) :=
  let cached_entry := stateGet state g.id
  match (if env.should_search then env.resolve g.id else Except.ok none) with
  | Except.error e => Except.error e
  | Except.ok latest =>
    match latest with
    | some mv => Except.ok (some (mv.video_id, mv.title))
    | none =>
      match cached_entry with
      | some ce => Except.ok (some (ce.video_id, ce.title.getD unknownTitle))
      | none => Except.ok none

/-- The `for g in GROUPS` loop of `main` with uncaught exceptions
modelled: a resolver exception or a failed metric post yields
`Except.error ()` (the run crashes before `save_state`); a `None`
statistics result skips the group; quota exhaustion breaks the loop. -/
def processGroupsE (env : RunEnvE) : StateMap → List Group → Except Unit RunResult
  | state, [] => Except.ok (RunResult.mk state [] false)
  | state, g :: rest =>
    match chosenVideoE env state g with
    | Except.error e => Except.error e
    | Except.ok none => processGroupsE env state rest
    | Except.ok (some (video_id, title)) =>
      match env.get_stats video_id with
      | StatsResult.fail => processGroupsE env state rest
      | StatsResult.quota => Except.ok (RunResult.mk state [] true)
      | StatsResult.ok view_count stats_title =>
        let title2 :=
          if title == unknownTitle && strOptTruthy stats_title then
            stats_title.getD title
          else title
        let m1 : Metric := Metric.mk (viewcountMetric g.id video_id) view_count
        if env.post m1 then
          let res := calc_view_delta state g.id video_id view_count (some title2)
          let m2 : Metric := Metric.mk (viewdeltaMetric g.id video_id) res.1
          if env.post m2 then
            match processGroupsE env res.2 rest with
            | Except.error e => Except.error e
            | Except.ok tail =>
              Except.ok (RunResult.mk tail.state (m1 :: m2 :: tail.metrics) tail.aborted)
          else Except.error ()
        else Except.error ()

/-- `main` with the exception channels: an `Except.error` outcome is a
crashed run whose state is never persisted. -/
def mainRunE (env : RunEnvE) (stored : Option StateMap) : Except Unit RunResult :=
  processGroupsE env (load_state stored) GROUPS

/-- `processGroups` is the fragment of `processGroupsE` in which no
collaborator raises: with an exception-free resolver and infallible
metric posts the two loops agree. -/
theorem processGroupsE_eq_processGroups (env : RunEnvE) (env' : RunEnv)
    (hs : env.should_search = env'.should_search)
    (hr : ∀ gid, env.resolve gid = Except.ok (env'.resolve gid))
    (hg : ∀ vid, env.get_stats vid = env'.get_stats vid)
    (hp : ∀ m, env.post m = true) :
    ∀ (state : StateMap) (l : List Group),
      processGroupsE env state l = Except.ok (processGroups env' state l) := by
  intro state l
  induction l generalizing state with
  | nil => rfl
  | cons g rest ih =>
    have hchosen : chosenVideoE env state g
        = Except.ok (chosenVideo env' state g) := by
      simp only [chosenVideoE, chosenVideo]
      rw [hs, hr g.id]
      cases env'.should_search with
      | false =>
        rw [if_neg (by simp), if_neg (by simp)]
        cases stateGet state g.id <;> rfl
      | true =>
        rw [if_pos rfl, if_pos rfl]
        cases env'.resolve g.id with
        | none => cases stateGet state g.id <;> rfl
        | some mv => rfl
    cases hc : chosenVideo env' state g with
    | none =>
      simp only [processGroupsE, processGroups, hchosen, hc]
      exact ih state
    | some vt =>
      obtain ⟨vid, ttl⟩ := vt
      cases hst : env'.get_stats vid with
      | fail =>
        have hst' : env.get_stats vid = StatsResult.fail := (hg vid).trans hst
        simp only [processGroupsE, processGroups, hchosen, hc, hst, hst']
        exact ih state
      | quota =>
        have hst' : env.get_stats vid = StatsResult.quota := (hg vid).trans hst
        simp [processGroupsE, processGroups, hchosen, hc, hst, hst']
      | ok vc stl =>
        have hst' : env.get_stats vid = StatsResult.ok vc stl := (hg vid).trans hst
        simp [processGroupsE, processGroups, hchosen, hc, hst, hst', hp, ih]

/-- A run of the exception-aware loop that completes touches no state
entry outside the processed groups' ids. -/
theorem processGroupsE_frame (env : RunEnvE) (l : List Group) :
    ∀ (state : StateMap) (k : String) (r : RunResult),
      k ∉ l.map Group.id →
      processGroupsE env state l = Except.ok r →
      stateGet r.state k = stateGet state k := by
  induction l with
  | nil =>
    intro state k r _ hres
    injection hres with h
    rw [← h]
  | cons g tl ih =>
    intro state k r hk hres
    have hkg : k ≠ g.id := fun hcontra => hk (by simp [hcontra])
    have hktl : k ∉ tl.map Group.id := fun hcontra => hk (by simp [hcontra])
    cases hc : chosenVideoE env state g with
    | error e =>
      simp only [processGroupsE, hc] at hres
      exact Except.noConfusion hres
    | ok latest =>
      cases latest with
      | none =>
        simp only [processGroupsE, hc] at hres
        exact ih state k r hktl hres
      | some vt =>
        obtain ⟨vid, ttl⟩ := vt
        cases hst : env.get_stats vid with
        | fail =>
          simp only [processGroupsE, hc, hst] at hres
          exact ih state k r hktl hres
        | quota =>
          simp only [processGroupsE, hc, hst] at hres
          injection hres with h
          rw [← h]
        | ok vc stl =>
          simp only [processGroupsE, hc, hst] at hres
          generalize (if (ttl == unknownTitle && strOptTruthy stl) = true
              then stl.getD ttl else ttl) = T2 at hres
          split at hres
          · split at hres
            · split at hres
              · exact Except.noConfusion hres
              next tail heq =>
                injection hres with h
                rw [← h]
                show stateGet tail.state k = stateGet state k
                rw [ih _ k tail hktl heq, calc_view_delta_snd]
                exact stateGet_stateSet_ne _ _ _ _ hkg
            · exact Except.noConfusion hres
          · exact Except.noConfusion hres

/-- C7 (amended): only a non-quota failure of the statistics fetch is
caught at the group boundary — it skips exactly that group, processing
continues with the remaining groups, and the group's stored entry is
unchanged in any state the run persists. Any other non-quota per-call
failure — the resolver raising (the search call or a duration fetch,
which have no handler), or a metric post failing — propagates and aborts
the whole run, so nothing is persisted at all. -/
theorem stats_fail_skips_group_others_crash (env : RunEnvE) (state : StateMap)
    (g : Group) (rest : List Group) :
    (∀ v t, chosenVideoE env state g = Except.ok (some (v, t)) →
        env.get_stats v = StatsResult.fail →
        processGroupsE env state (g :: rest) = processGroupsE env state rest
        ∧ (g.id ∉ rest.map Group.id →
            ∀ r, processGroupsE env state (g :: rest) = Except.ok r →
              stateGet r.state g.id = stateGet state g.id))
    ∧ (env.should_search = true → env.resolve g.id = Except.error () →
        processGroupsE env state (g :: rest) = Except.error ())
    ∧ (∀ v t vc stl, chosenVideoE env state g = Except.ok (some (v, t)) →
        env.get_stats v = StatsResult.ok vc stl →
        env.post (Metric.mk (viewcountMetric g.id v) vc) = false →
        processGroupsE env state (g :: rest) = Except.error ()) := by
  refine ⟨?_, ?_, ?_⟩
  · intro v t hc hf
    have heq : processGroupsE env state (g :: rest) = processGroupsE env state rest := by
      simp only [processGroupsE, hc, hf]
    refine ⟨heq, ?_⟩
    intro hid r hres
    rw [heq] at hres
    exact processGroupsE_frame env rest state g.id r hid hres
  · intro hss hre
    have hce : chosenVideoE env state g = Except.error () := by
      simp only [chosenVideoE, hss]
      rw [if_pos trivial, hre]
    simp only [processGroupsE, hce]
  · intro v t vc stl hc hst hpost
    simp only [processGroupsE, hc, hst, hpost]
    rw [if_neg (by simp)]

def resolveC7 : String → Except Unit (Option MVResult) := fun gid =>
  if gid = "g1" then search_latest_mv parseC6 fdC6 itemsC6 "IVE"
  else if gid = "g2" then Except.ok (some (MVResult.mk "v2" "T2"))
  else Except.ok none

def envC7 : RunEnvE :=
  { should_search := true
  , resolve := resolveC7
  , get_stats := fun vid =>
      if vid = "v2" then StatsResult.ok 50 none else StatsResult.fail
  , post := fun _ => true }

def stC7 : StateMap := [("g1", GroupState.mk "vOld" 10 (some "OldT"))]

/-- C7 counterexample: group `g1`'s per-call external failure is an HTTP
error of the duration fetch inside resolution (`fdC6` — the failure is
never a quota signal, and the statistics oracle returns no quota value
either). Although `g1` has a cached entry and a further group `g2` is
pending, the run crashes (`Except.error`, so `save_state` never
executes) instead of skipping `g1` and continuing: the same run without
`g1` processes `g2`, posts its metrics and persists state. -/
theorem nonquota_failure_crashes_run_counterexample :
    resolveC7 "g1" = search_latest_mv parseC6 fdC6 itemsC6 "IVE"
    ∧ fdC6 "v1" = DurFetch.httpErr
    ∧ processGroupsE envC7 stC7 [g1W, g2W] = Except.error ()
    ∧ processGroupsE envC7 stC7 [g2W]
        = Except.ok (RunResult.mk
            [("g1", GroupState.mk "vOld" 10 (some "OldT")),
             ("g2", GroupState.mk "v2" 50 (some "T2"))]
            [Metric.mk "kpop.youtube.viewcount.g2_v2" 50,
             Metric.mk "kpop.youtube.viewdelta.g2_v2" 0] false) :=
  ⟨rfl, rfl, rfl, rfl⟩

def st7w : StateMap := [("g1", GroupState.mk "vOld" 10 none)]

def envE1 : RunEnvE :=
  { should_search := true
  , resolve := fun gid =>
      if gid = "g1" then Except.ok (some (MVResult.mk "v1" "T1")) else Except.ok none
  , get_stats := fun _ => StatsResult.fail
  , post := fun _ => true }

def envE2 : RunEnvE :=
  { should_search := true
  , resolve := fun gid =>
      if gid = "g1" then Except.error () else Except.ok none
  , get_stats := fun _ => StatsResult.fail
  , post := fun _ => true }

def envE3 : RunEnvE :=
  { should_search := true
  , resolve := fun gid =>
      if gid = "g1" then Except.ok (some (MVResult.mk "v1" "T1")) else Except.ok none
  , get_stats := fun _ => StatsResult.ok 100 none
  , post := fun _ => false }

theorem stats_fail_skips_group_others_crash_witness :
    (processGroupsE envE1 st7w [g1W] = processGroupsE envE1 st7w []
      ∧ stateGet (RunResult.mk st7w [] false).state "g1" = stateGet st7w "g1")
    ∧ processGroupsE envE2 st7w [g1W] = Except.error ()
    ∧ processGroupsE envE3 st7w [g1W] = Except.error () := by
  refine ⟨⟨?_, ?_⟩, ?_, ?_⟩
  · exact ((stats_fail_skips_group_others_crash envE1 st7w g1W []).1 "v1" "T1" rfl rfl).1
  · exact ((stats_fail_skips_group_others_crash envE1 st7w g1W []).1 "v1" "T1" rfl rfl).2
      (by decide) (RunResult.mk st7w [] false) rfl
  · exact (stats_fail_skips_group_others_crash envE2 st7w g1W []).2.1 rfl rfl
  · exact (stats_fail_skips_group_others_crash envE3 st7w g1W []).2.2 "v1" "T1" 100 none
      rfl rfl rfl

end KpopMV
